import Mathlib

/-!
Verification development for the crypto-post collection service
(`app/storage.py`, `app/utils.py`, `app/scrapers/reddit_scraper.py`,
`app/scrapers/telegram_scraper.py`, `app/scrapers/twitter_scraper.py`,
`app/main.py`).

The Python modules are shallowly embedded as executable Lean functions.
Conventions used throughout:

* A Python dict representing a scraped post becomes a structure whose
  fields are `Option`-typed; `none` models an absent key or a `None`
  value, mirroring `dict.get`.
* Python string falsiness (`x or y` falling through on `None` and `""`)
  is modelled explicitly by `pyOrStr`.
* The SQL stores (PostgreSQL `ON CONFLICT (uid) DO NOTHING` and SQLite
  `INSERT OR IGNORE`, which share semantics) become a list of rows with
  an insert-if-absent fold keyed by `uid`.
* `datetime.utcnow()` is passed in as an explicit `now : Nat` value.
* Regex character classes (`\w`, `\s`) are read at their ASCII meaning;
  all counterexamples below are ASCII strings.
* Network calls become injected response sequences (`Nat → Option page`),
  `none` modelling a request that raises `requests.RequestException`;
  functions that can raise to their caller return `Except`.
-/

/-! ## Python string helpers -/

/-- Python truthiness for strings: `None` and `""` are falsy. -/
def pyTruthy : Option String → Bool
  | none => false
  | some s => !(s = "")

/-- `a or b` for an optional string `a` and fallback `b`
(the fallback is taken when `a` is `None` or `""`). -/
def pyOrStr (a : Option String) (b : String) : String :=
  match a with
  | none => b
  | some s => if s = "" then b else s

/-- ASCII whitespace, the characters Python's `str.strip` removes and
`\s` matches (ASCII reading): space, `\t`, `\n`, `\r`, `\x0b`, `\x0c`. -/
def isPySpace (c : Char) : Bool :=
  c = ' ' || c = '\t' || c = '\n' || c = '\r' ||
  c = Char.ofNat 11 || c = Char.ofNat 12

/-- Python `str.strip()` on a character list. -/
def stripChars (cs : List Char) : List Char :=
  (((cs.dropWhile isPySpace).reverse).dropWhile isPySpace).reverse

/-- Python `str.strip()`. -/
def pyStrip (s : String) : String := ⟨stripChars s.data⟩

/-- Python `str.lower()` on one character (ASCII reading). -/
def pyLowerChar (c : Char) : Char :=
  if 65 ≤ c.toNat ∧ c.toNat ≤ 90 then Char.ofNat (c.toNat + 32) else c

/-- Python `str.lower()` (ASCII reading). -/
def pyLower (s : String) : String := ⟨s.data.map pyLowerChar⟩

/-! ## SHA-1 (`hashlib.sha1(...).hexdigest()` from `app/storage.py`)

Implemented over `Nat` with explicit reduction modulo `2^32`. -/

/-- Reduce to a 32-bit word. -/
def w32 (n : Nat) : Nat := n % 4294967296

/-- Rotate a 32-bit word left by `s` bits. -/
def rotl32 (s n : Nat) : Nat :=
  w32 (Nat.lor (n <<< s) (n >>> (32 - s)))

/-- Bitwise complement of a 32-bit word. -/
def not32 (n : Nat) : Nat := Nat.xor n 4294967295

/-- UTF-8 encoding of one character (Python `str.encode("utf-8")`). -/
def utf8Bytes (c : Char) : List Nat :=
  let n := c.toNat
  if n < 128 then [n]
  else if n < 2048 then [192 + n / 64, 128 + n % 64]
  else if n < 65536 then
    [224 + n / 4096, 128 + (n / 64) % 64, 128 + n % 64]
  else
    [240 + n / 262144, 128 + (n / 4096) % 64, 128 + (n / 64) % 64,
     128 + n % 64]

/-- UTF-8 byte sequence of a string. -/
def strBytes (s : String) : List Nat := s.data.flatMap utf8Bytes

/-- SHA-1 message padding: append `0x80`, zero bytes up to 56 mod 64,
then the bit length as 8 big-endian bytes. -/
def sha1Pad (m : List Nat) : List Nat :=
  let ml := m.length * 8
  let zeros := (119 - m.length % 64) % 64
  m ++ [128] ++ List.replicate zeros 0 ++
    [ml >>> 56 % 256, ml >>> 48 % 256, ml >>> 40 % 256, ml >>> 32 % 256,
     ml >>> 24 % 256, ml >>> 16 % 256, ml >>> 8 % 256, ml % 256]

/-- Split a byte list into 64-byte chunks (fuel-structural; the fuel
`cs.length` always suffices). -/
def chunks64Aux : Nat → List Nat → List (List Nat)
  | _, [] => []
  | 0, l => [l]
  | fuel + 1, l => l.take 64 :: chunks64Aux fuel (l.drop 64)

def chunks64 (l : List Nat) : List (List Nat) := chunks64Aux l.length l

/-- Big-endian 32-bit words from bytes. -/
def bytesToWords : List Nat → List Nat
  | b0 :: b1 :: b2 :: b3 :: rest =>
      (b0 * 16777216 + b1 * 65536 + b2 * 256 + b3) :: bytesToWords rest
  | _ => []

/-- Extend 16 message words to 80 round words. -/
def sha1Extend (ws : List Nat) : List Nat :=
  (List.range 64).foldl
    (fun acc _ =>
      let n := acc.length
      acc ++ [rotl32 1
        (Nat.xor (Nat.xor (acc.getD (n - 3) 0) (acc.getD (n - 8) 0))
                 (Nat.xor (acc.getD (n - 14) 0) (acc.getD (n - 16) 0)))])
    ws

/-- One SHA-1 round: state `(a, b, c, d, e)`, round index `i`, word `w`. -/
def sha1Round (st : Nat × Nat × Nat × Nat × Nat) (iw : Nat × Nat) :
    Nat × Nat × Nat × Nat × Nat :=
  let (a, b, c, d, e) := st
  let (i, w) := iw
  let fk : Nat × Nat :=
    if i < 20 then (Nat.lor (Nat.land b c) (Nat.land (not32 b) d), 1518500249)
    else if i < 40 then (Nat.xor (Nat.xor b c) d, 1859775393)
    else if i < 60 then
      (Nat.lor (Nat.lor (Nat.land b c) (Nat.land b d)) (Nat.land c d),
       2400959708)
    else (Nat.xor (Nat.xor b c) d, 3395469782)
  let temp := w32 (rotl32 5 a + fk.1 + e + fk.2 + w)
  (temp, a, rotl32 30 b, c, d)

/-- Process one 64-byte chunk into the running hash state. -/
def sha1Chunk (h : Nat × Nat × Nat × Nat × Nat) (chunk : List Nat) :
    Nat × Nat × Nat × Nat × Nat :=
  let ws := sha1Extend (bytesToWords chunk)
  let (a, b, c, d, e) := ws.enum.foldl sha1Round h
  (w32 (h.1 + a), w32 (h.2.1 + b), w32 (h.2.2.1 + c),
   w32 (h.2.2.2.1 + d), w32 (h.2.2.2.2 + e))

/-- SHA-1 state after hashing a byte list. -/
def sha1State (m : List Nat) : Nat × Nat × Nat × Nat × Nat :=
  (chunks64 (sha1Pad m)).foldl sha1Chunk
    (1732584193, 4023233417, 2562383102, 271733878, 3285377520)

/-- Hex digit (lowercase, as `hexdigest`). -/
def hexNib (n : Nat) : Char :=
  if n < 10 then Char.ofNat (48 + n) else Char.ofNat (87 + n)

/-- Eight hex digits of a 32-bit word, big-endian. -/
def hex8 (w : Nat) : List Char :=
  [hexNib (w >>> 28 % 16), hexNib (w >>> 24 % 16), hexNib (w >>> 20 % 16),
   hexNib (w >>> 16 % 16), hexNib (w >>> 12 % 16), hexNib (w >>> 8 % 16),
   hexNib (w >>> 4 % 16), hexNib (w % 16)]

/-- `hashlib.sha1(s.encode("utf-8")).hexdigest()`. -/
def sha1Hex (s : String) : String :=
  match sha1State (strBytes s) with
  | (a, b, c, d, e) => ⟨hex8 a ++ hex8 b ++ hex8 c ++ hex8 d ++ hex8 e⟩

/-! ## `app/storage.py` -/

/-- A scraped post as handed to `save_posts`: a Python dict whose keys
may be absent (`none`). `created_utc` is kept as its string rendering
(`str(post.get("created_utc") or "")` is applied on storage). -/
structure Post where
  id : Option String
  source : Option String
  method : Option String
  title : Option String
  text : Option String
  score : Option Int
  created_utc : Option String
  human_label : Option String
  author : Option String
  subreddit : Option String
  url : Option String
  num_comments : Option Int
deriving Repr, DecidableEq

/-- A row of the `posts` table. -/
structure Row where
  uid : String
  id : String
  source : String
  method : String
  title : String
  text : String
  score : Int
  created_utc : String
  human_label : Option String
  author : Option String
  subreddit : Option String
  url : Option String
  num_comments : Option Int
  scraped_at : Nat
deriving Repr, DecidableEq

/-- The pre-hash identity string built inside `_post_uid`:
`f"{source}:{method}:{post_id}"` when `str(post.get("id") or "").strip()`
is non-empty, else `f"{source}:{method}:{title}:{created_utc}"`. -/
def postUidBase (post : Post) (source method : String) : String :=
  if pyStrip (pyOrStr post.id "") ≠ "" then
    source ++ ":" ++ method ++ ":" ++ pyStrip (pyOrStr post.id "")
  else
    source ++ ":" ++ method ++ ":" ++ post.title.getD "" ++ ":" ++
      post.created_utc.getD ""

/-- `_post_uid(post, source, method)` from `app/storage.py`. -/
def post_uid (post : Post) (source method : String) : String :=
  sha1Hex (postUidBase post source method)

/-- The row built for one post inside the `save_posts` loop
(`p_source = source or post.get("source") or "unknown"`, likewise for
`method`; missing text fields default to `""`, missing numbers to 0). -/
def mkRow (post : Post) (source method : Option String) (now : Nat) : Row :=
  let p_source := pyOrStr source (pyOrStr post.source "unknown")
  let p_method := pyOrStr method (pyOrStr post.method "unknown")
  { uid := post_uid post p_source p_method
    id := pyOrStr post.id ""
    source := p_source
    method := p_method
    title := post.title.getD ""
    text := post.text.getD ""
    score := post.score.getD 0
    created_utc := post.created_utc.getD ""
    human_label := post.human_label
    author := post.author
    subreddit := post.subreddit
    url := post.url
    num_comments := post.num_comments
    scraped_at := now }

/-- Whether the store already holds a row with this `uid`
(the primary-key conflict test behind `DO NOTHING` / `OR IGNORE`). -/
def uidMem (store : List Row) (u : String) : Bool :=
  store.any (fun r => r.uid == u)

/-- Result dict of `save_posts` (`db_type`, which only records which
backend was configured, is omitted). -/
structure SaveResult where
  inserted : Nat
  total : Nat
deriving Repr, DecidableEq

/-- The insert loop of `save_posts`: one `INSERT ... DO NOTHING` per
post, counting `cur.rowcount == 1`. -/
def saveAux (source method : Option String) (now : Nat) :
    List Post → List Row → Nat → List Row × Nat
  | [], store, ins => (store, ins)
  | p :: rest, store, ins =>
      let row := mkRow p source method now
      if uidMem store row.uid then
        saveAux source method now rest store ins
      else
        saveAux source method now rest (store ++ [row]) (ins + 1)

/-- `save_posts(posts, source, method)` from `app/storage.py`, with the
connection's table as explicit state and `datetime.utcnow()` as `now`.
Returns the updated table and the stats dict. -/
def save_posts (posts : List Post) (source method : Option String)
    (now : Nat) (store : List Row) : List Row × SaveResult :=
  if posts.isEmpty then (store, ⟨0, 0⟩)
  else
    let (st, ins) := saveAux source method now posts store 0
    (st, ⟨ins, posts.length⟩)

/-! ## `app/utils.py` — `clean_text`

Each `re.sub` pass becomes a left-to-right scanner. Character classes
`\w` and `\s` are taken at their ASCII meaning; the scanners are
fuel-structural (fuel `cs.length` always suffices, since every step
consumes at least one character). -/

/-- `\w` (ASCII reading): `[a-zA-Z0-9_]`. -/
def isWordChar (c : Char) : Bool := c.isAlphanum || c = '_'

/-- Length of a match of `http\S+` at the head of the list, if any. -/
def matchHttpLen (cs : List Char) : Option Nat :=
  match cs with
  | 'h' :: 't' :: 't' :: 'p' :: rest =>
      let run := (rest.takeWhile (fun c => !isPySpace c)).length
      if run = 0 then none else some (4 + run)
  | _ => none

/-- Length of a match of `www\.\S+` at the head of the list, if any. -/
def matchWwwLen (cs : List Char) : Option Nat :=
  match cs with
  | 'w' :: 'w' :: 'w' :: '.' :: rest =>
      let run := (rest.takeWhile (fun c => !isPySpace c)).length
      if run = 0 then none else some (4 + run)
  | _ => none

/-- `re.sub(r"http\S+|www\.\S+", "", ·)` scanner. -/
def subUrlsAux : Nat → List Char → List Char
  | _, [] => []
  | 0, l => l
  | fuel + 1, c :: rest =>
      match matchHttpLen (c :: rest) with
      | some k => subUrlsAux fuel ((c :: rest).drop k)
      | none =>
          match matchWwwLen (c :: rest) with
          | some k => subUrlsAux fuel ((c :: rest).drop k)
          | none => c :: subUrlsAux fuel rest

def subUrls (cs : List Char) : List Char := subUrlsAux cs.length cs

/-- Length of a match of `m/\w+` at the head (for `u/\w+`, `r/\w+`). -/
def matchTagLen (m : Char) (cs : List Char) : Option Nat :=
  match cs with
  | c :: '/' :: rest =>
      if c = m then
        let run := (rest.takeWhile isWordChar).length
        if run = 0 then none else some (2 + run)
      else none
  | _ => none

/-- `re.sub(r"m/\w+", "", ·)` scanner for a marker character `m`. -/
def subTagAux (m : Char) : Nat → List Char → List Char
  | _, [] => []
  | 0, l => l
  | fuel + 1, c :: rest =>
      match matchTagLen m (c :: rest) with
      | some k => subTagAux m fuel ((c :: rest).drop k)
      | none => c :: subTagAux m fuel rest

def subTag (m : Char) (cs : List Char) : List Char := subTagAux m cs.length cs

/-- The kept class of `re.sub(r"[^\w\s.,!?'-]", " ", ·)`: everything
else is replaced by a space. -/
def keepClassChar (c : Char) : Char :=
  if isWordChar c || isPySpace c || c = '.' || c = ',' || c = '!' ||
     c = '?' || c = Char.ofNat 39 || c = '-' then c else ' '

/-- `re.sub(r"\s+", " ", ·)`: every whitespace run becomes one space. -/
def collapseWs : List Char → List Char
  | [] => []
  | [c] => if isPySpace c then [' '] else [c]
  | a :: b :: rest =>
      if isPySpace a && isPySpace b then collapseWs (b :: rest)
      else (if isPySpace a then ' ' else a) :: collapseWs (b :: rest)

/-- `clean_text` from `app/utils.py`. -/
def clean_text (text : String) : String :=
  if text = "" then ""
  else
    let s1 := subUrls text.data
    let s2 := subTag 'u' s1
    let s3 := subTag 'r' s2
    let s4 := s3.map keepClassChar
    let s5 := collapseWs s4
    pyLower ⟨stripChars s5⟩

/-! ## `app/scrapers/telegram_scraper.py` -/

/-- Length of a match of `@\w+` at the head, if any. -/
def matchMentionLen (cs : List Char) : Option Nat :=
  match cs with
  | '@' :: rest =>
      let run := (rest.takeWhile isWordChar).length
      if run = 0 then none else some (1 + run)
  | _ => none

/-- `re.sub(r"@\w+", "", ·)` scanner. -/
def subMentionAux : Nat → List Char → List Char
  | _, [] => []
  | 0, l => l
  | fuel + 1, c :: rest =>
      match matchMentionLen (c :: rest) with
      | some k => subMentionAux fuel ((c :: rest).drop k)
      | none => c :: subMentionAux fuel rest

def subMention (cs : List Char) : List Char := subMentionAux cs.length cs

/-- Emoji range of `[\U0001F600-\U0001F64F]`. -/
def isEmojiChar (c : Char) : Bool := 128512 ≤ c.toNat && c.toNat ≤ 128591

/-- `re.sub(r"[\U0001F600-\U0001F64F]{3,}", "", ·)` scanner: a maximal
run of at least three emoji is removed. -/
def subEmojiRunsAux : Nat → List Char → List Char
  | _, [] => []
  | 0, l => l
  | fuel + 1, c :: rest =>
      let run := ((c :: rest).takeWhile isEmojiChar).length
      if 3 ≤ run then subEmojiRunsAux fuel ((c :: rest).drop run)
      else c :: subEmojiRunsAux fuel rest

def subEmojiRuns (cs : List Char) : List Char := subEmojiRunsAux cs.length cs

/-- `clean_text` from `app/scrapers/telegram_scraper.py` (a distinct
function from the one in `app/utils.py`): URL removal, mention removal,
emoji-run removal, then `' '.join(text.split())` and `strip()`. -/
def tg_clean_text (text : String) : String :=
  let t1 := subUrls text.data
  let t2 := subMention t1
  let t3 := subEmojiRuns t2
  let t4 := stripChars (collapseWs t3)
  ⟨stripChars t4⟩

/-- One `tgme_widget_message_wrap` as the paginated scraper reads it:
the `data-post` attribute (e.g. `"channel/123"`), the message text (if a
text div exists), the parsed `<time datetime=...>` value as a day
number, and the parsed view count. -/
structure TgWrap where
  dataPost : Option String
  text : Option String
  date : Option Nat
  views : Nat
deriving Repr, DecidableEq

/-- A message dict built by the paginated scraper (the constant
`channel` and `source` fields are omitted). -/
structure TgMsg where
  id : Option String
  text : String
  date : Option Nat
  views : Nat
deriving Repr, DecidableEq

/-- `data_post.split('/')[-1]`. -/
def lastSegment (s : String) : String := ((s.splitOn "/").getLast?).getD s

/-- The per-page wraps loop of `_scrape_telegram_paginated_impl`.
State: accumulated messages, `new_messages`, `oldest_id`. The returned
`Bool` is true when the end-date boundary forced
`consecutive_empty = 999; break`. -/
def tgWraps (sd ed : Option Nat) (filtering : Bool) :
    List TgWrap → List TgMsg → Nat → Option String →
    List TgMsg × Nat × Option String × Bool
  | [], msgs, newC, oldest => (msgs, newC, oldest, false)
  | w :: rest, msgs, newC, oldest =>
      let oldest' := match w.dataPost with
        | some dp => some (lastSegment dp)
        | none => oldest
      match w.text with
      | none => tgWraps sd ed filtering rest msgs newC oldest'
      | some t =>
          if t.length < 5 then tgWraps sd ed filtering rest msgs newC oldest'
          else
            let dup := match w.dataPost with
              | some dp => msgs.any (fun m => m.id == some dp)
              | none => msgs.any (fun m => m.text == t)
            if dup then tgWraps sd ed filtering rest msgs newC oldest'
            else
              let append :=
                tgWraps sd ed filtering rest
                  (msgs ++ [⟨w.dataPost, tg_clean_text t, w.date, w.views⟩])
                  (newC + 1) oldest'
              if filtering then
                match w.date with
                | none => tgWraps sd ed filtering rest msgs newC oldest'
                | some dday =>
                    if sd.elim false (fun s => decide (dday < s)) then
                      tgWraps sd ed filtering rest msgs newC oldest'
                    else if ed.elim false (fun e => decide (e < dday)) then
                      (msgs, newC, oldest', true)
                    else append
              else append

/-- Result of a paginated telegram run, with the number of HTTP
requests made as an explicit trace. -/
structure TgRun where
  messages : List TgMsg
  requests : Nat
deriving Repr, DecidableEq

/-- The `while` loop of `_scrape_telegram_paginated_impl`. The fuel is
`max_pages - page`, which is exactly the `page < max_pages` loop guard;
`adapter n` is the parsed wrap list of the `n`-th HTTP response (`none`
models `requests.RequestException`). -/
def tgLoopAux (adapter : Nat → Option (List TgWrap)) (maxMessages : Nat)
    (sd ed : Option Nat) :
    Nat → Nat → Nat → Option String → List TgMsg → TgRun
  | 0, req, _, _, msgs => ⟨msgs, req⟩
  | fuel + 1, req, ce, _before, msgs =>
      if maxMessages ≤ msgs.length then ⟨msgs, req⟩
      else
        match adapter req with
        | none => ⟨msgs, req + 1⟩
        | some wraps =>
            if wraps.isEmpty then ⟨msgs, req + 1⟩
            else
              let filtering := sd.isSome || ed.isSome
              let (msgs', newC, oldest, forced) :=
                tgWraps sd ed filtering wraps msgs 0 none
              let ceInner := if forced then 999 else ce
              if newC = 0 ∧ 3 ≤ ceInner + 1 then ⟨msgs', req + 1⟩
              else
                let ce' := if newC = 0 then ceInner + 1 else 0
                match oldest with
                | none => ⟨msgs', req + 1⟩
                | some oid =>
                    tgLoopAux adapter maxMessages sd ed fuel (req + 1) ce'
                      (some oid) msgs'

/-- `_scrape_telegram_paginated_impl(channel, max_messages, start_date,
end_date)`: runs the pagination loop with the page ceiling
`max_messages // 20 + 50` and truncates to `max_messages`. -/
def scrape_telegram_paginated_impl (adapter : Nat → Option (List TgWrap))
    (maxMessages : Nat) (sd ed : Option Nat) : TgRun :=
  let maxPages := maxMessages / 20 + 50
  let run := tgLoopAux adapter maxMessages sd ed maxPages 0 0 none []
  ⟨run.messages.take maxMessages, run.requests⟩

/-- `scrape_telegram_simple`: the `try/except` wrapper that turns any
exception from the implementation into `[]`. The implementation's
outcome (a message list, or an exception) is injected. -/
def scrape_telegram_simple (implOutcome : Except Unit (List TgMsg)) :
    Except Unit (List TgMsg) :=
  match implOutcome with
  | .ok l => .ok l
  | .error _ => .ok []

/-! ## `app/scrapers/reddit_scraper.py`

Dates: `start_date`/`end_date` arrive as optional ISO strings and
`created_utc` as a Unix timestamp. A date argument is modelled as
`Option (Option Nat)`: `none` = not supplied, `some none` = a string
`datetime.fromisoformat` rejects (it raises `ValueError`), and
`some (some d)` = a valid date denoting calendar day `d`. A
timestamp's calendar day (`datetime.fromtimestamp(t).date()`) is
`t / 86400`; timezone subtleties of the local-time conversion are
abstracted into this common day scale. -/

/-- One entry of `data.children` in a Reddit listing response. -/
structure RChild where
  id : Option String
  title : Option String
  selftext : Option String
  score : Option Int
  created_utc : Option Nat
deriving Repr, DecidableEq

/-- One parsed Reddit listing page: `data.children` and `data.after`. -/
structure RPage where
  children : List RChild
  after : Option String
deriving Repr, DecidableEq

/-- The post dict appended by `scrape_reddit_http` for one child. -/
structure RedditPost where
  id : Option String
  title : String
  text : String
  score : Int
  created_utc : Option Nat
  source : String
  method : String
deriving Repr, DecidableEq

def rChildToPost (c : RChild) : RedditPost :=
  { id := c.id
    title := c.title.getD ""
    text := c.selftext.getD ""
    score := c.score.getD 0
    created_utc := c.created_utc
    source := "reddit"
    method := "http" }

/-- Calendar day of `datetime.fromtimestamp(t).date()`. -/
def tsDay (t : Nat) : Nat := t / 86400

/-- `datetime.fromisoformat(d)` on a date argument: raises on a
malformed string. -/
def parseDateArg : Option (Option Nat) → Except Unit (Option Nat)
  | none => .ok none
  | some none => .error ()
  | some (some d) => .ok (some d)

/-- The keep test of the `filter_posts_by_date` loop for one post:
posts with no timestamp (or Python-falsy timestamp `0`) are skipped,
then the day is compared against the bounds. Per-post conversion
errors are caught by its inner `try` and also skip the post. -/
def keepPost (sd ed : Option Nat) (p : RedditPost) : Bool :=
  match p.created_utc with
  | none => false
  | some t =>
      if t = 0 then false
      else
        (sd.elim true (fun d => decide (d ≤ tsDay t))) &&
        (ed.elim true (fun d => decide (tsDay t ≤ d)))

/-- `filter_posts_by_date(posts, start_date, end_date)` from
`app/scrapers/reddit_scraper.py`. A malformed bound raises
(`datetime.fromisoformat` is outside any `try`), start parsed first. -/
def filter_posts_by_date (posts : List RedditPost)
    (start_date end_date : Option (Option Nat)) :
    Except Unit (List RedditPost) :=
  if start_date = none ∧ end_date = none then .ok posts
  else do
    let sd ← parseDateArg start_date
    let ed ← parseDateArg end_date
    .ok (posts.filter (keepPost sd ed))

/-- `fetch_limit`: doubled when a date bound is given, capped at
`LIMITS["http"] = 1000`. -/
def redditFetchLimit (limit : Nat)
    (start_date end_date : Option (Option Nat)) : Nat :=
  let fl := if start_date ≠ none ∨ end_date ≠ none then limit * 2 else limit
  min fl 1000

/-- Trace of one run of the Reddit HTTP pagination loop: the
accumulated raw posts, the number of HTTP requests made, and whether
the modelling fuel ran out before a loop exit was reached (proved
impossible below). -/
structure RedditRun where
  posts : List RedditPost
  requests : Nat
  ranOut : Bool
deriving Repr, DecidableEq

/-- The `while len(posts) < fetch_limit` loop of `scrape_reddit_http`.
`adapter n` is the parsed JSON of the `n`-th request (`none` = the
request raised). On the first failed request the host is switched from
`old.reddit.com` to `www.reddit.com` and the loop continues (`fb`
records that the switch happened); a second failure breaks. A page with
no children breaks; posts are appended up to `fetch_limit`; a missing
or empty `after` breaks. -/
def redditLoopAux (adapter : Nat → Option RPage) (fetchLimit : Nat) :
    Nat → Nat → Bool → List RedditPost → RedditRun
  | 0, req, _, acc =>
      if acc.length < fetchLimit then ⟨acc, req, true⟩
      else ⟨acc, req, false⟩
  | fuel + 1, req, fb, acc =>
      if fetchLimit ≤ acc.length then ⟨acc, req, false⟩
      else
        match adapter req with
        | none =>
            if fb then ⟨acc, req + 1, false⟩
            else redditLoopAux adapter fetchLimit fuel (req + 1) true acc
        | some pg =>
            if pg.children.isEmpty then ⟨acc, req + 1, false⟩
            else
              let acc' :=
                acc ++ (pg.children.take (fetchLimit - acc.length)).map
                  rChildToPost
              match pg.after with
              | none => ⟨acc', req + 1, false⟩
              | some a =>
                  if a = "" then ⟨acc', req + 1, false⟩
                  else redditLoopAux adapter fetchLimit fuel (req + 1) fb acc'

/-- `scrape_reddit_http(subreddit, limit, start_date, end_date)`:
pagination loop, then the date filter, then `posts[:limit]`. The
returned value carries the request-count trace and the fuel flag. -/
def scrape_reddit_http (adapter : Nat → Option RPage) (limit : Nat)
    (start_date end_date : Option (Option Nat)) :
    Except Unit (List RedditPost) × Nat × Bool :=
  let fl := redditFetchLimit limit start_date end_date
  let run := redditLoopAux adapter fl (fl + 2) 0 false []
  ((filter_posts_by_date run.posts start_date end_date).map
      (fun l => l.take limit),
   run.requests, run.ranOut)

/-- `scrape_reddit(subreddit, limit, method, start_date, end_date)`:
dispatches to the Selenium or HTTP variant inside `try/except`, turning
any exception into `[]`. The Selenium variant's outcome is injected. -/
def scrape_reddit (method : String)
    (seleniumOutcome : Except Unit (List RedditPost))
    (adapter : Nat → Option RPage) (limit : Nat)
    (start_date end_date : Option (Option Nat)) :
    Except Unit (List RedditPost) :=
  match (if method = "selenium" then seleniumOutcome
         else (scrape_reddit_http adapter limit start_date end_date).1) with
  | .ok l => .ok l
  | .error _ => .ok []

/-! ## `app/scrapers/twitter_scraper.py` and the `/scrape` endpoint -/

/-- A tweet dict as built by `parse_tweets` (fields beyond the ones the
claims mention are omitted). -/
structure TwPost where
  id : String
  title : String
  method : String
deriving Repr, DecidableEq

/-- The fetch-strategy chain of `scrape_twitter`, keeping which access
path produced the returned items as an explicit trace tag. Inputs:
`envNoLogin` = `TWITTER_NO_LOGIN` set; `cookies`/`creds` = cookie file
or credentials available; `loginOk` = the logged-in path reached the
search page (when it does not, `scrape_twitter_with_login` itself falls
back to `scrape_twitter_no_login`); `searchPosts` = what the logged-in
search collects; `noLoginPosts` = what the public-profile scan
collects. `scrape_twitter_no_login` clamps its limit to
`LIMITS["no_login"] = 100`; the logged-in path clamps to
`LIMITS["selenium"] = 2000`. An empty logged-in result also falls back
(`"Mode login n'a retourné aucun résultat"`). -/
def scrape_twitter (envNoLogin cookies creds loginOk : Bool)
    (searchPosts noLoginPosts : List TwPost) (limit : Nat) :
    List TwPost × String :=
  let noLogin := (noLoginPosts.take (min limit 100), "no_login")
  if envNoLogin then noLogin
  else if (cookies || creds) && loginOk then
    let searched := searchPosts.take (min limit 2000)
    if searched.isEmpty then noLogin else (searched, "with_login")
  else noLogin

/-- The fields of the `/scrape` response relevant here. -/
structure ScrapeResponse where
  source : String
  method : String
  posts_count : Nat
deriving Repr, DecidableEq

/-- The Twitter branch of the `/scrape` endpoint in `app/main.py`:
`posts = scrape_twitter(req.symbol, limit=req.limit)` and
`method_used = "selenium"` (a constant assigned in the branch, before
and independently of the scrape outcome). -/
def scrape_endpoint_twitter (envNoLogin cookies creds loginOk : Bool)
    (searchPosts noLoginPosts : List TwPost) (limit : Nat) :
    ScrapeResponse :=
  let posts := (scrape_twitter envNoLogin cookies creds loginOk
    searchPosts noLoginPosts limit).1
  { source := "Twitter", method := "selenium", posts_count := posts.length }

/-! ## Helper lemmas -/

lemma sha1Hex_length (s : String) : (sha1Hex s).length = 40 := by
  unfold sha1Hex
  obtain ⟨a, b, c, d, e⟩ := sha1State (strBytes s)
  simp [String.length, hex8]

lemma postUidBase_data (p : Post) (s m : String) :
    ∃ rest, (postUidBase p s m).data = s.data ++ ':' :: rest := by
  unfold postUidBase
  split
  · exact ⟨m.data ++ ':' :: (pyStrip (pyOrStr p.id "")).data, by
      simp [String.data_append, List.append_assoc]⟩
  · exact ⟨m.data ++ ':' :: ((p.title.getD "").data ++ ':' ::
      (p.created_utc.getD "").data), by
      simp [String.data_append, List.append_assoc]⟩

lemma takeWhile_append_colon (pre rest : List Char) (h : ':' ∉ pre) :
    (pre ++ ':' :: rest).takeWhile (fun c => c != ':') = pre := by
  induction pre with
  | nil => simp
  | cons a t ih =>
      have ha : a ≠ ':' := by
        intro e; exact h (e ▸ List.mem_cons_self a t)
      simp only [List.cons_append, List.takeWhile_cons]
      simp [ha, ih (fun hm => h (List.mem_cons_of_mem a hm))]

lemma head?_dropWhile_false {p : Char → Bool} (l : List Char) (c : Char)
    (h : (l.dropWhile p).head? = some c) : p c = false := by
  induction l with
  | nil => simp [List.dropWhile] at h
  | cons a t ih =>
      rw [List.dropWhile_cons] at h
      by_cases hp : p a
      · rw [if_pos hp] at h; exact ih h
      · rw [if_neg hp] at h
        simp only [List.head?_cons, Option.some.injEq] at h
        subst h
        exact Bool.eq_false_iff.mpr hp

lemma getLast?_dropWhile_ne_nil {p : Char → Bool} (l : List Char)
    (h : l.dropWhile p ≠ []) : (l.dropWhile p).getLast? = l.getLast? := by
  obtain ⟨t, ht⟩ := List.dropWhile_suffix (l := l) p
  conv_rhs => rw [← ht]
  exact (List.getLast?_append_of_ne_nil t h).symm

lemma stripChars_head (l : List Char) (c : Char)
    (h : (stripChars l).head? = some c) : isPySpace c = false := by
  unfold stripChars at h
  rw [List.head?_reverse] at h
  have hne : (l.dropWhile isPySpace).reverse.dropWhile isPySpace ≠ [] := by
    intro e; rw [e] at h; simp at h
  rw [getLast?_dropWhile_ne_nil _ hne, List.getLast?_reverse] at h
  exact head?_dropWhile_false _ _ h

lemma stripChars_getLast (l : List Char) (c : Char)
    (h : (stripChars l).getLast? = some c) : isPySpace c = false := by
  unfold stripChars at h
  rw [List.getLast?_reverse] at h
  exact head?_dropWhile_false _ _ h

lemma toNat_ofNat_valid (n : Nat) (h : n.isValidChar) :
    (Char.ofNat n).toNat = n := by
  simp [Char.ofNat, h, Char.ofNatAux, Char.toNat, UInt32.toNat,
    BitVec.toNat_ofNatLt]

lemma isPySpace_false_of_toNat (c : Char) (h : 32 < c.toNat) :
    isPySpace c = false := by
  have h1 : c ≠ ' ' := fun e => absurd (e ▸ h) (by decide)
  have h2 : c ≠ '\t' := fun e => absurd (e ▸ h) (by decide)
  have h3 : c ≠ '\n' := fun e => absurd (e ▸ h) (by decide)
  have h4 : c ≠ '\r' := fun e => absurd (e ▸ h) (by decide)
  have h5 : c ≠ Char.ofNat 11 := fun e => absurd (e ▸ h) (by decide)
  have h6 : c ≠ Char.ofNat 12 := fun e => absurd (e ▸ h) (by decide)
  simp [isPySpace, h1, h2, h3, h4, h5, h6]

lemma pyLowerChar_space (c : Char) (h : isPySpace c = false) :
    isPySpace (pyLowerChar c) = false := by
  unfold pyLowerChar
  split
  case isTrue hc =>
    apply isPySpace_false_of_toNat
    rw [toNat_ofNat_valid _ (Or.inl (by omega))]
    omega
  case isFalse hc => exact h

lemma pyLowerChar_not_upper (c : Char) :
    ¬(65 ≤ (pyLowerChar c).toNat ∧ (pyLowerChar c).toNat ≤ 90) := by
  unfold pyLowerChar
  split
  case isTrue hc =>
    rw [toNat_ofNat_valid _ (Or.inl (by omega))]
    omega
  case isFalse hc => exact hc

lemma trimLower_props (x : List Char) :
    (∀ c, (pyLower ⟨stripChars x⟩).data.head? = some c → isPySpace c = false) ∧
    (∀ c, (pyLower ⟨stripChars x⟩).data.getLast? = some c →
      isPySpace c = false) ∧
    (∀ c ∈ (pyLower ⟨stripChars x⟩).data,
      ¬(65 ≤ c.toNat ∧ c.toNat ≤ 90)) := by
  have hdata : (pyLower ⟨stripChars x⟩).data = (stripChars x).map pyLowerChar :=
    rfl
  refine ⟨?_, ?_, ?_⟩
  · intro c hc
    rw [hdata, List.head?_map] at hc
    match hm : (stripChars x).head? with
    | none => rw [hm] at hc; simp at hc
    | some c₀ =>
        rw [hm] at hc
        simp only [Option.map_some', Option.some.injEq] at hc
        rw [← hc]
        exact pyLowerChar_space c₀ (stripChars_head _ _ hm)
  · intro c hc
    rw [hdata, List.getLast?_map] at hc
    match hm : (stripChars x).getLast? with
    | none => rw [hm] at hc; simp at hc
    | some c₀ =>
        rw [hm] at hc
        simp only [Option.map_some', Option.some.injEq] at hc
        rw [← hc]
        exact pyLowerChar_space c₀ (stripChars_getLast _ _ hm)
  · intro c hc
    rw [hdata] at hc
    obtain ⟨c₀, _, rfl⟩ := List.mem_map.1 hc
    exact pyLowerChar_not_upper c₀

/-- Post used in the C2 collision and witness. -/
def uidCollisionPost : Post :=
  ⟨some "x", none, none, none, none, none, none, none, none, none, none, none⟩

/-- C2 counterexample: two records whose sources differ (`"a:b"` vs
`"a"`) receive the same dedup key, because the colon-joined identity
string does not escape colons inside `source`/`method`. -/
theorem C2_cx_distinct_sources_same_key :
    post_uid uidCollisionPost "a:b" "c" = post_uid uidCollisionPost "a" "b:c" ∧
    ("a:b" : String) ≠ "a" := by
  constructor
  · unfold post_uid
    exact congrArg sha1Hex (by decide)
  · decide

/-- C2 (amended): `_post_uid` is total — it returns a 40-character hex
digest for every record, however malformed — and two records whose
sources differ are given distinct SHA-1 input strings, provided the
sources contain no `':'` (without that proviso the claim fails, see the
counterexample). -/
theorem C2_post_uid_total_and_discriminating :
    (∀ (p : Post) (source method : String),
      (post_uid p source method).length = 40) ∧
    (∀ (p₁ p₂ : Post) (s₁ s₂ m₁ m₂ : String),
      ':' ∉ s₁.data → ':' ∉ s₂.data → s₁ ≠ s₂ →
      postUidBase p₁ s₁ m₁ ≠ postUidBase p₂ s₂ m₂) := by
  constructor
  · intro p source method
    exact sha1Hex_length _
  · intro p₁ p₂ s₁ s₂ m₁ m₂ h₁ h₂ hne heq
    obtain ⟨r₁, e₁⟩ := postUidBase_data p₁ s₁ m₁
    obtain ⟨r₂, e₂⟩ := postUidBase_data p₂ s₂ m₂
    have hd := congrArg String.data heq
    rw [e₁, e₂] at hd
    have hdd : s₁.data = s₂.data := by
      calc s₁.data
          = (s₁.data ++ ':' :: r₁).takeWhile (fun c => c != ':') :=
            (takeWhile_append_colon _ _ h₁).symm
        _ = (s₂.data ++ ':' :: r₂).takeWhile (fun c => c != ':') := by
            rw [hd]
        _ = s₂.data := takeWhile_append_colon _ _ h₂
    apply hne
    cases s₁; cases s₂; cases hdd; rfl

/-- C2 witness: the discriminating half applied at colon-free sources
`"reddit"` vs `"telegram"`, and totality at a concrete record. -/
theorem C2_witness :
    (':' ∉ ("reddit" : String).data) ∧ (':' ∉ ("telegram" : String).data) ∧
    ("reddit" : String) ≠ "telegram" ∧
    postUidBase uidCollisionPost "reddit" "http" ≠
      postUidBase uidCollisionPost "telegram" "http" ∧
    (post_uid uidCollisionPost "reddit" "http").length = 40 :=
  ⟨by decide, by decide, by decide,
   C2_post_uid_total_and_discriminating.2 uidCollisionPost uidCollisionPost
     "reddit" "telegram" "http" "http" (by decide) (by decide) (by decide),
   C2_post_uid_total_and_discriminating.1 uidCollisionPost "reddit" "http"⟩

/-- C9 counterexample: `clean_text` is not idempotent. `"Httpx"` is
left alone on the first pass (the URL regex is case-sensitive), but the
lowercased output `"httpx"` is removed as a URL by a second pass. -/
theorem C9_cx_clean_text_not_idempotent :
    clean_text (clean_text "Httpx") ≠ clean_text "Httpx" := by decide

/-- C9 (amended): `clean_text` output never has leading or trailing
whitespace and contains no uppercase ASCII letter (code points 65–90);
the idempotence half of the claim is false, see the counterexample. -/
theorem C9_clean_text_trim_lower (s : String) :
    (∀ c, (clean_text s).data.head? = some c → isPySpace c = false) ∧
    (∀ c, (clean_text s).data.getLast? = some c → isPySpace c = false) ∧
    (∀ c ∈ (clean_text s).data, ¬(65 ≤ c.toNat ∧ c.toNat ≤ 90)) := by
  unfold clean_text
  split
  case isTrue h => simp
  case isFalse h => exact trimLower_props _

/-- C9 witness: the amended theorem applied at `" A!b "`, whose cleaned
form is `"a!b"`. -/
theorem C9_witness :
    (clean_text " A!b ").data.head? = some 'a' ∧ isPySpace 'a' = false :=
  ⟨by decide, (C9_clean_text_trim_lower " A!b ").1 'a' (by decide)⟩

/-- C10: persisting an empty batch returns `inserted = 0`, `total = 0`
and performs no write — the store is returned unchanged (the code
returns before even opening a connection). -/
theorem C10_save_posts_empty_noop (source method : Option String)
    (now : Nat) (store : List Row) :
    save_posts [] source method now store = (store, ⟨0, 0⟩) := rfl

/-- C7 counterexample: there is no fixed maximum length bounding the
stored title and body — for any candidate bound `L` a post whose title
is `L + 1` characters long is stored with all `L + 1` characters. -/
theorem C7_cx_no_truncation_bound :
    ¬ ∃ L : Nat, ∀ (p : Post) (source method : Option String) (now : Nat),
      (mkRow p source method now).title.length ≤ L ∧
      (mkRow p source method now).text.length ≤ L := by
  rintro ⟨L, h⟩
  have h2 := (h ⟨none, none, none, some ⟨List.replicate (L + 1) 'a'⟩, none,
    none, none, none, none, none, none, none⟩ none none 0).1
  simp [mkRow, String.length] at h2

/-- C7 (amended): the persistence path does not truncate at all — for
every length `n` there is a post whose stored row carries a title and a
body of exactly `n` characters, `save_posts` storing both fields
verbatim. (Only the Twitter adapter truncates its own titles to 500
characters before handing them over.) -/
theorem C7_no_truncation_in_store (n : Nat) (source method : Option String)
    (now : Nat) :
    ∃ p : Post,
      ((save_posts [p] source method now []).1.map Row.title =
        [⟨List.replicate n 'a'⟩]) ∧
      ((save_posts [p] source method now []).1.map Row.text =
        [⟨List.replicate n 'b'⟩]) := by
  refine ⟨⟨none, none, none, some ⟨List.replicate n 'a'⟩,
    some ⟨List.replicate n 'b'⟩, none, none, none, none, none, none, none⟩,
    ?_, ?_⟩ <;>
    simp [save_posts, saveAux, uidMem, mkRow]

/-- Ten tweets as the no-login fallback returns them (`parse_tweets`
tags every item `method = "selenium"`). -/
def tenFallbackTweets : List TwPost :=
  List.replicate 10 ⟨"id", "tweet", "selenium"⟩

/-- C6 counterexample: with credentials present but the logged-in path
blocked, the items are produced by the `no_login` fallback (the code's
own name for it, the `LIMITS` key), yet the `/scrape` response reports
the constant `"selenium"`, not the fallback. -/
theorem C6_cx_method_not_fallback :
    (scrape_twitter false false true false [] tenFallbackTweets 50).2 =
      "no_login" ∧
    (scrape_endpoint_twitter false false true false [] tenFallbackTweets
      50).method = "selenium" ∧
    (scrape_endpoint_twitter false false true false [] tenFallbackTweets
      50).posts_count = 10 ∧
    ("selenium" : String) ≠ "no_login" := by decide

/-- C6 (amended): for Twitter the `/scrape` response's `method` field is
the constant `"selenium"`, chosen before and independently of which
access path produced the items; `posts_count` does report the number of
items the chain (fallback included) returned. -/
theorem C6_method_constant_selenium (envNoLogin cookies creds loginOk : Bool)
    (searchPosts noLoginPosts : List TwPost) (limit : Nat) :
    (scrape_endpoint_twitter envNoLogin cookies creds loginOk searchPosts
      noLoginPosts limit).method = "selenium" ∧
    (scrape_endpoint_twitter envNoLogin cookies creds loginOk searchPosts
      noLoginPosts limit).posts_count =
      (scrape_twitter envNoLogin cookies creds loginOk searchPosts
        noLoginPosts limit).1.length :=
  ⟨rfl, rfl⟩

lemma uidMem_append (store t : List Row) (u : String)
    (h : uidMem store u = true) : uidMem (store ++ t) u = true := by
  unfold uidMem at *
  simp only [List.any_append, h, Bool.true_or]

lemma saveAux_store_prefix (src meth : Option String) (now : Nat) :
    ∀ (posts : List Post) (store : List Row) (ins : Nat),
    ∃ t, (saveAux src meth now posts store ins).1 = store ++ t := by
  intro posts
  induction posts with
  | nil => intro store ins; exact ⟨[], by simp [saveAux]⟩
  | cons p rest ih =>
      intro store ins
      cases h : uidMem store (mkRow p src meth now).uid
      · obtain ⟨t, ht⟩ := ih (store ++ [mkRow p src meth now]) (ins + 1)
        exact ⟨[mkRow p src meth now] ++ t, by
          simp only [saveAux, h, Bool.false_eq_true, if_false, ht,
            List.append_assoc]⟩
      · obtain ⟨t, ht⟩ := ih store ins
        exact ⟨t, by simp only [saveAux, h, if_true, ht]⟩

lemma saveAux_mem_uid (src meth : Option String) (now : Nat) :
    ∀ (posts : List Post) (store : List Row) (ins : Nat) (p : Post),
    p ∈ posts →
    uidMem (saveAux src meth now posts store ins).1
      (mkRow p src meth now).uid = true := by
  intro posts
  induction posts with
  | nil => intro _ _ p hp; cases hp
  | cons q rest ih =>
      intro store ins p hp
      cases h : uidMem store (mkRow q src meth now).uid
      · simp only [saveAux, h, Bool.false_eq_true, if_false]
        rcases List.mem_cons.1 hp with rfl | hp'
        · obtain ⟨t, ht⟩ := saveAux_store_prefix src meth now rest
            (store ++ [mkRow p src meth now]) (ins + 1)
          rw [ht]
          apply uidMem_append
          unfold uidMem
          simp
        · exact ih (store ++ [mkRow q src meth now]) (ins + 1) p hp'
      · simp only [saveAux, h, if_true]
        rcases List.mem_cons.1 hp with rfl | hp'
        · obtain ⟨t, ht⟩ := saveAux_store_prefix src meth now rest store ins
          rw [ht]
          exact uidMem_append _ _ _ h
        · exact ih store ins p hp'

lemma saveAux_all_present (src meth : Option String) (now : Nat) :
    ∀ (posts : List Post) (store : List Row) (ins : Nat),
    (∀ p ∈ posts, uidMem store (mkRow p src meth now).uid = true) →
    saveAux src meth now posts store ins = (store, ins) := by
  intro posts
  induction posts with
  | nil => intro store ins _; rfl
  | cons q rest ih =>
      intro store ins h
      have hq := h q (List.mem_cons_self q rest)
      simp only [saveAux, hq, if_true]
      exact ih store ins (fun p hp => h p (List.mem_cons_of_mem q hp))

lemma saveAux_fresh_inserts (src meth : Option String) (now : Nat) :
    ∀ (posts : List Post) (store : List Row) (ins : Nat),
    (posts.map (fun p => (mkRow p src meth now).uid)).Nodup →
    (∀ p ∈ posts, uidMem store (mkRow p src meth now).uid = false) →
    (saveAux src meth now posts store ins).2 = ins + posts.length := by
  intro posts
  induction posts with
  | nil => intro store ins _ _; simp [saveAux]
  | cons q rest ih =>
      intro store ins hnd hf
      have hq := hf q (List.mem_cons_self q rest)
      simp only [saveAux, hq, Bool.false_eq_true, if_false]
      rw [List.map_cons] at hnd
      obtain ⟨hqni, hnd'⟩ := List.nodup_cons.1 hnd
      have hf' : ∀ p ∈ rest,
          uidMem (store ++ [mkRow q src meth now])
            (mkRow p src meth now).uid = false := by
        intro p hp
        unfold uidMem
        simp only [List.any_append, Bool.or_eq_false_iff]
        constructor
        · have := hf p (List.mem_cons_of_mem q hp)
          unfold uidMem at this
          exact this
        · simp only [List.any_cons, List.any_nil, Bool.or_false]
          have : (mkRow q src meth now).uid ≠ (mkRow p src meth now).uid := by
            intro e
            exact hqni (by
              rw [e]
              exact List.mem_map_of_mem _ hp)
          exact beq_eq_false_iff_ne.mpr this
      rw [ih (store ++ [mkRow q src meth now]) (ins + 1) hnd' hf']
      simp only [List.length_cons]
      omega

lemma find?_append_left {p : Row → Bool} (l₁ l₂ : List Row)
    (h : (List.find? p l₁).isSome) :
    List.find? p (l₁ ++ l₂) = List.find? p l₁ := by
  rw [List.find?_append]
  obtain ⟨r, hr⟩ := Option.isSome_iff_exists.1 h
  rw [hr]
  rfl

/-- C1 counterexample: a batch containing the same record twice on an
empty store reports `inserted = 1`, not `len(B) = 2` — the second copy
hits the freshly inserted row's primary key. -/
theorem C1_cx_duplicate_batch :
    (save_posts [⟨some "x", none, none, none, none, none, none, none, none,
        none, none, none⟩,
      ⟨some "x", none, none, none, none, none, none, none, none, none, none,
        none⟩] (some "reddit") (some "http") 0 []).2.inserted = 1 ∧
    ([⟨some "x", none, none, none, none, none, none, none, none, none, none,
        none⟩,
      ⟨some "x", none, none, none, none, none, none, none, none, none, none,
        none⟩] : List Post).length = 2 ∧ (1 : Nat) ≠ 2 := by
  refine ⟨?_, rfl, by decide⟩
  simp [save_posts, saveAux, uidMem]

/-- C1 (amended): on a store holding no record of the batch, and for a
batch whose records have pairwise-distinct dedup keys, the first
`save_posts` reports `inserted = len(B)`; an immediately repeated call
reports `inserted = 0` and leaves the row count (indeed the whole
store) unchanged — the repeat half needs no hypothesis at all. -/
theorem C1_save_posts_idempotent (posts : List Post)
    (source method : Option String) (now now' : Nat) (store : List Row)
    (hnodup : (posts.map (fun p => (mkRow p source method now).uid)).Nodup)
    (hfresh : ∀ p ∈ posts,
      uidMem store (mkRow p source method now).uid = false) :
    (save_posts posts source method now store).2.inserted = posts.length ∧
    (save_posts posts source method now'
      ((save_posts posts source method now store).1)).2.inserted = 0 ∧
    (save_posts posts source method now'
      ((save_posts posts source method now store).1)).1.length =
      (save_posts posts source method now store).1.length := by
  by_cases hp : posts = []
  · subst hp
    exact ⟨rfl, rfl, rfl⟩
  · have hne : posts.isEmpty = false := by
      cases posts with
      | nil => exact absurd rfl hp
      | cons a l => rfl
    have hall : ∀ p ∈ posts,
        uidMem ((saveAux source method now posts store 0).1)
          (mkRow p source method now').uid = true := by
      intro p hp'
      exact saveAux_mem_uid source method now posts store 0 p hp'
    refine ⟨?_, ?_, ?_⟩
    · have hins := saveAux_fresh_inserts source method now posts store 0
        hnodup hfresh
      simp only [save_posts, hne, Bool.false_eq_true, if_false]
      show (saveAux source method now posts store 0).2 = posts.length
      omega
    · simp only [save_posts, hne, Bool.false_eq_true, if_false]
      show (saveAux source method now' posts
        ((saveAux source method now posts store 0).1) 0).2 = 0
      rw [saveAux_all_present source method now' posts _ 0 hall]
    · simp only [save_posts, hne, Bool.false_eq_true, if_false]
      show (saveAux source method now' posts
        ((saveAux source method now posts store 0).1) 0).1.length = _
      rw [saveAux_all_present source method now' posts _ 0 hall]

/-- C1 witness: a one-record batch on the empty store. -/
theorem C1_witness :
    (([⟨some "w", none, none, none, none, none, none, none, none, none, none,
        none⟩] : List Post).map
      (fun p => (mkRow p (some "reddit") (some "http") 3).uid)).Nodup ∧
    (save_posts [⟨some "w", none, none, none, none, none, none, none, none,
        none, none, none⟩] (some "reddit") (some "http") 3 []).2.inserted =
      1 := by
  constructor
  · simp
  · exact (C1_save_posts_idempotent
      [⟨some "w", none, none, none, none, none, none, none, none, none, none,
        none⟩] (some "reddit") (some "http") 3 4 [] (by simp)
      (fun p _ => rfl)).1

/-- C4: rows already in the store are never touched by a later
`save_posts` call — the old store is an unchanged prefix of the new
one, and looking any pre-existing row up by its dedup key returns the
identical row, every column (`scraped_at` included) intact. -/
theorem C4_rows_immutable (posts : List Post) (source method : Option String)
    (now : Nat) (store : List Row) (r : Row) (hr : r ∈ store) :
    (save_posts posts source method now store).1.take store.length = store ∧
    List.find? (fun x => x.uid == r.uid)
        ((save_posts posts source method now store).1) =
      List.find? (fun x => x.uid == r.uid) store := by
  have hsome : (List.find? (fun x => x.uid == r.uid) store).isSome := by
    rw [List.find?_isSome]
    exact ⟨r, hr, by simp⟩
  by_cases hp : posts = []
  · subst hp
    exact ⟨List.take_length store, rfl⟩
  · have hne : posts.isEmpty = false := by
      cases posts with
      | nil => exact absurd rfl hp
      | cons a l => rfl
    obtain ⟨t, ht⟩ := saveAux_store_prefix source method now posts store 0
    simp only [save_posts, hne, Bool.false_eq_true, if_false]
    show ((saveAux source method now posts store 0).1.take store.length =
        store) ∧ _
    rw [ht]
    exact ⟨List.take_left store t, find?_append_left store t hsome⟩

/-- C4 witness: one pre-existing row survives a save of a new post. -/
theorem C4_witness :
    (⟨"u0", "i", "reddit", "http", "t", "x", 0, "", none, none, none, none,
      none, 5⟩ : Row) ∈
      [(⟨"u0", "i", "reddit", "http", "t", "x", 0, "", none, none, none, none,
        none, 5⟩ : Row)] ∧
    (save_posts [⟨some "y", none, none, none, none, none, none, none, none,
        none, none, none⟩] none none 7
      [⟨"u0", "i", "reddit", "http", "t", "x", 0, "", none, none, none, none,
        none, 5⟩]).1.take 1 =
      [(⟨"u0", "i", "reddit", "http", "t", "x", 0, "", none, none, none, none,
        none, 5⟩ : Row)] := by
  constructor
  · exact List.mem_singleton.mpr rfl
  · exact (C4_rows_immutable
      [⟨some "y", none, none, none, none, none, none, none, none, none, none,
        none⟩] none none 7
      [⟨"u0", "i", "reddit", "http", "t", "x", 0, "", none, none, none, none,
        none, 5⟩]
      ⟨"u0", "i", "reddit", "http", "t", "x", 0, "", none, none, none, none,
        none, 5⟩ (List.mem_singleton.mpr rfl)).1

lemma tgLoopAux_requests_le (adapter : Nat → Option (List TgWrap))
    (maxMessages : Nat) (sd ed : Option Nat) :
    ∀ (fuel req ce : Nat) (before : Option String) (msgs : List TgMsg),
    (tgLoopAux adapter maxMessages sd ed fuel req ce before msgs).requests ≤
      req + fuel := by
  intro fuel
  induction fuel with
  | zero =>
      intro req ce before msgs
      show req ≤ req + 0
      omega
  | succ f ih =>
      intro req ce before msgs
      simp only [tgLoopAux]
      by_cases h1 : maxMessages ≤ msgs.length
      · rw [if_pos h1]
        show req ≤ req + (f + 1)
        omega
      · rw [if_neg h1]
        cases hA : adapter req with
        | none =>
            show req + 1 ≤ req + (f + 1)
            omega
        | some wraps =>
            cases wraps with
            | nil =>
                show req + 1 ≤ req + (f + 1)
                omega
            | cons w ws =>
                show (match tgWraps sd ed (sd.isSome || ed.isSome) (w :: ws)
                    msgs 0 none with
                  | (msgs', newC, oldest, forced) =>
                    if newC = 0 ∧ 3 ≤ (if forced then 999 else ce) + 1 then
                      (⟨msgs', req + 1⟩ : TgRun)
                    else
                      match oldest with
                      | none => ⟨msgs', req + 1⟩
                      | some oid =>
                          tgLoopAux adapter maxMessages sd ed f (req + 1)
                            (if newC = 0 then (if forced then 999 else ce) + 1
                             else 0) (some oid) msgs').requests ≤
                  req + (f + 1)
                rcases tgWraps sd ed (sd.isSome || ed.isSome) (w :: ws) msgs 0
                  none with ⟨msgs', newC, oldest, forced⟩
                dsimp only
                by_cases h2 : newC = 0 ∧ 3 ≤ (if forced then 999 else ce) + 1
                · rw [if_pos h2]
                  show req + 1 ≤ req + (f + 1)
                  omega
                · rw [if_neg h2]
                  cases oldest with
                  | none =>
                      show req + 1 ≤ req + (f + 1)
                      omega
                  | some oid =>
                      exact le_trans (ih (req + 1) _ (some oid) msgs')
                        (by omega)

lemma redditLoopAux_requests_le (adapter : Nat → Option RPage)
    (fetchLimit : Nat) :
    ∀ (fuel req : Nat) (fb : Bool) (acc : List RedditPost),
    (redditLoopAux adapter fetchLimit fuel req fb acc).requests ≤
      req + fuel := by
  intro fuel
  induction fuel with
  | zero =>
      intro req fb acc
      simp only [redditLoopAux]
      split
      · show req ≤ req + 0
        omega
      · show req ≤ req + 0
        omega
  | succ f ih =>
      intro req fb acc
      simp only [redditLoopAux]
      by_cases h1 : fetchLimit ≤ acc.length
      · rw [if_pos h1]
        show req ≤ req + (f + 1)
        omega
      · rw [if_neg h1]
        cases hA : adapter req with
        | none =>
            cases fb with
            | true =>
                show req + 1 ≤ req + (f + 1)
                omega
            | false =>
                exact le_trans (ih (req + 1) true acc) (by omega)
        | some pg =>
            dsimp only
            by_cases h2 : pg.children.isEmpty
            · rw [if_pos h2]
              show req + 1 ≤ req + (f + 1)
              omega
            · rw [if_neg h2]
              cases hAf : pg.after with
              | none =>
                  show req + 1 ≤ req + (f + 1)
                  omega
              | some a =>
                  dsimp only
                  by_cases h3 : a = ""
                  · rw [if_pos h3]
                    show req + 1 ≤ req + (f + 1)
                    omega
                  · rw [if_neg h3]
                    exact le_trans (ih (req + 1) fb _) (by omega)

lemma redditLoopAux_no_ranOut (adapter : Nat → Option RPage)
    (fetchLimit : Nat) :
    ∀ (fuel : Nat) (acc : List RedditPost) (fb : Bool) (req : Nat),
    fetchLimit + 1 + (if fb then 0 else 1) ≤ fuel + acc.length →
    (redditLoopAux adapter fetchLimit fuel req fb acc).ranOut = false := by
  intro fuel
  induction fuel with
  | zero =>
      intro acc fb req hinv
      simp only [redditLoopAux]
      rw [if_neg (by split at hinv <;> omega)]
  | succ f ih =>
      intro acc fb req hinv
      simp only [redditLoopAux]
      by_cases h1 : fetchLimit ≤ acc.length
      · rw [if_pos h1]
      · rw [if_neg h1]
        cases hA : adapter req with
        | none =>
            cases fb with
            | true => rfl
            | false =>
                apply ih acc true (req + 1)
                simp only [if_true] at hinv ⊢
                simp only [if_neg Bool.false_ne_true] at hinv
                omega
        | some pg =>
            dsimp only
            by_cases h2 : pg.children.isEmpty
            · rw [if_pos h2]
            · rw [if_neg h2]
              have hl : 1 ≤ pg.children.length := by
                cases hc : pg.children with
                | nil => rw [hc] at h2; exact absurd rfl h2
                | cons x xs => simp
              cases hAf : pg.after with
              | none => rfl
              | some a =>
                  dsimp only
                  by_cases h3 : a = ""
                  · rw [if_pos h3]
                  · rw [if_neg h3]
                    apply ih _ fb (req + 1)
                    rw [List.length_append, List.length_map,
                      List.length_take]
                    have : 1 ≤ min (fetchLimit - acc.length)
                        pg.children.length := by
                      omega
                    split at hinv <;> split <;> omega

/-- C3: both pagination loops make a bounded number of page requests
for every adapter behaviour — Telegram is capped by its page ceiling
`max_messages // 20 + 50`, and the Reddit HTTP loop by
`fetch_limit + 2` requests (every productive page adds at least one
post, and the one-shot host fallback spends one extra request); in
particular the Reddit loop always exits on its own accord
(`ranOut = false` — the modelling fuel is never consumed). An adapter
whose every page yields wraps but zero new messages is stopped by the
three-consecutive-empty-pages guard after exactly 3 requests. -/
theorem C3_pagination_bounded (tgAdapter : Nat → Option (List TgWrap))
    (maxMessages : Nat) (sd ed : Option Nat)
    (rAdapter : Nat → Option RPage) (limit : Nat)
    (start_date end_date : Option (Option Nat)) :
    (scrape_telegram_paginated_impl tgAdapter maxMessages sd ed).requests ≤
      maxMessages / 20 + 50 ∧
    (scrape_reddit_http rAdapter limit start_date end_date).2.1 ≤
      redditFetchLimit limit start_date end_date + 2 ∧
    (scrape_reddit_http rAdapter limit start_date end_date).2.2 = false ∧
    (scrape_telegram_paginated_impl
      (fun _ => some [⟨some "c/1", some "ab", none, 0⟩]) 100 none
      none).requests = 3 := by
  refine ⟨?_, ?_, ?_, by decide⟩
  · have h := tgLoopAux_requests_le tgAdapter maxMessages sd ed
      (maxMessages / 20 + 50) 0 0 none []
    simpa [scrape_telegram_paginated_impl] using h
  · have h := redditLoopAux_requests_le rAdapter
      (redditFetchLimit limit start_date end_date)
      (redditFetchLimit limit start_date end_date + 2) 0 false []
    simpa [scrape_reddit_http] using h
  · have h := redditLoopAux_no_ranOut rAdapter
      (redditFetchLimit limit start_date end_date)
      (redditFetchLimit limit start_date end_date + 2) [] false 0
      (by simp)
    simpa [scrape_reddit_http] using h

/-- C5: `scrape_reddit` returns `ok` (a list, possibly empty) for every
input and every failure pattern of the underlying fetch — malformed
date strings, failing requests, an erroring Selenium path — and so does
the `scrape_telegram_simple` wrapper; no exception escapes to the
caller. -/
theorem C5_scrape_never_raises (method : String)
    (seleniumOutcome : Except Unit (List RedditPost))
    (adapter : Nat → Option RPage) (limit : Nat)
    (start_date end_date : Option (Option Nat))
    (tgImpl : Except Unit (List TgMsg)) :
    (∃ l, scrape_reddit method seleniumOutcome adapter limit start_date
      end_date = .ok l) ∧
    (∃ l, scrape_telegram_simple tgImpl = .ok l) := by
  constructor
  · unfold scrape_reddit
    split
    · exact ⟨_, rfl⟩
    · exact ⟨[], rfl⟩
  · unfold scrape_telegram_simple
    split
    · exact ⟨_, rfl⟩
    · exact ⟨[], rfl⟩

instance {ε α : Type} [DecidableEq ε] [DecidableEq α] :
    DecidableEq (Except ε α) := fun a b =>
  match a, b with
  | .error e, .error f =>
      if h : e = f then isTrue (by rw [h])
      else isFalse (by intro hh; cases hh; exact h rfl)
  | .ok x, .ok y =>
      if h : x = y then isTrue (by rw [h])
      else isFalse (by intro hh; cases hh; exact h rfl)
  | .error _, .ok _ => isFalse (by intro hh; cases hh)
  | .ok _, .error _ => isFalse (by intro hh; cases hh)

/-- A Reddit child with timestamp `t`, for the C8 scenario. -/
def c8Child (t : Nat) : RChild := ⟨some "i", some "t", some "", some 1, some t⟩

/-- The adapter of the C8 scenario: two pages with strictly decreasing
timestamps (days 10, 4, then 3, 2); the first page already crosses a
day-5 boundary. -/
def c8Adapter : Nat → Option RPage
  | 0 => some ⟨[c8Child 864000, c8Child 345600], some "t1"⟩
  | 1 => some ⟨[c8Child 259200, c8Child 172800], none⟩
  | _ => none

/-- C8 counterexample: pages are strictly newest-first and the first
page contains an item older than the day-5 start boundary, yet the loop
still fetches the second page (2 requests, not 1) — pagination does not
stop at the date boundary; the boundary is only applied by the filter
afterwards, so the result still contains no old item. -/
theorem C8_cx_no_early_stop :
    (864000 > 345600 ∧ 345600 > 259200 ∧ 259200 > 172800) ∧
    tsDay 345600 < 5 ∧
    (scrape_reddit_http c8Adapter 4 (some (some 5)) none).2.1 = 2 ∧
    (scrape_reddit_http c8Adapter 4 (some (some 5)) none).1 =
      .ok [rChildToPost (c8Child 864000)] := by decide

lemma keepPost_start_bound (d : Nat) (edv : Option Nat) (p : RedditPost)
    (hk : keepPost (some d) edv p = true) :
    ∃ t, p.created_utc = some t ∧ t ≠ 0 ∧ d ≤ tsDay t := by
  unfold keepPost at hk
  cases hc : p.created_utc with
  | none => rw [hc] at hk; cases hk
  | some t =>
      rw [hc] at hk
      dsimp only at hk
      by_cases ht : t = 0
      · rw [if_pos ht] at hk; cases hk
      · rw [if_neg ht] at hk
        refine ⟨t, rfl, ht, ?_⟩
        rw [Bool.and_eq_true] at hk
        simpa using hk.1

lemma filter_posts_keeps_only_ge (posts : List RedditPost) (d : Nat)
    (ed : Option (Option Nat)) (l : List RedditPost)
    (h : filter_posts_by_date posts (some (some d)) ed = .ok l) :
    ∀ p ∈ l, ∃ t, p.created_utc = some t ∧ t ≠ 0 ∧ d ≤ tsDay t := by
  unfold filter_posts_by_date at h
  rw [if_neg (by simp)] at h
  cases ed with
  | none =>
      simp only [parseDateArg, Bind.bind, Except.bind,
        Except.ok.injEq] at h
      subst h
      intro p hp
      exact keepPost_start_bound d none p (List.mem_filter.1 hp).2
  | some oe =>
      cases oe with
      | none =>
          simp only [parseDateArg, Bind.bind, Except.bind] at h
          cases h
      | some e =>
          simp only [parseDateArg, Bind.bind, Except.bind,
            Except.ok.injEq] at h
          subst h
          intro p hp
          exact keepPost_start_bound d (some e) p (List.mem_filter.1 hp).2

/-- C8 (amended): the run does not stop paginating at the date boundary
(see the counterexample); instead the whole fetched batch is passed
through `filter_posts_by_date`, which guarantees that no item older
than the `start_date` boundary appears in the returned result. -/
theorem C8_no_old_items_in_result (adapter : Nat → Option RPage)
    (limit : Nat) (d : Nat) (end_date : Option (Option Nat))
    (l : List RedditPost) (p : RedditPost)
    (hok : (scrape_reddit_http adapter limit (some (some d)) end_date).1 =
      .ok l)
    (hp : p ∈ l) :
    ∃ t, p.created_utc = some t ∧ t ≠ 0 ∧ d ≤ tsDay t := by
  unfold scrape_reddit_http at hok
  dsimp only at hok
  cases hf : filter_posts_by_date
      (redditLoopAux adapter (redditFetchLimit limit (some (some d)) end_date)
        (redditFetchLimit limit (some (some d)) end_date + 2) 0 false
        []).posts
      (some (some d)) end_date with
  | error e => rw [hf] at hok; cases hok
  | ok f =>
      rw [hf] at hok
      simp only [Except.map, Except.ok.injEq] at hok
      subst hok
      exact filter_posts_keeps_only_ge _ d end_date f hf p
        (List.mem_of_mem_take hp)

/-- C8 witness: the amended theorem applied to the concrete two-page
scenario, whose filtered result is the single day-10 post. -/
theorem C8_witness :
    ((scrape_reddit_http c8Adapter 4 (some (some 5)) none).1 =
      .ok [rChildToPost (c8Child 864000)]) ∧
    (∃ t, (rChildToPost (c8Child 864000)).created_utc = some t ∧ t ≠ 0 ∧
      5 ≤ tsDay t) :=
  ⟨by decide,
   C8_no_old_items_in_result c8Adapter 4 5 none
     [rChildToPost (c8Child 864000)] (rChildToPost (c8Child 864000))
     (by decide) (List.mem_singleton.mpr rfl)⟩
